import Mathlib

/-!
# Verification of the whatsapp-ws-extension-gateway session broker

A shallow embedding of the session broker and request-correlation engine of
the `whatsapp-ws-extension-gateway` repository, together with theorems about
the behaviour of its operations.

* `src/protocol.js` — stateless validators and command builders;
* `src/session-manager.js` — the per-credential device registry, the
  pending-request correlation table, and the heartbeat-based liveness sweep;
* `src/gateway.js` — the broker façade: inbound envelope handlers and the
  outward send operations.

JavaScript `Map` objects are modelled as insertion-ordered association
lists; mutation of a session object found by a scan is modelled as an
in-place functional update of the first matching entry.  Side effects on the
outside world (timer disarming, settling the caller's promise, invoking the
stale-session hook, replying on the socket) are modelled as explicit effect
lists emitted by each operation, and the settle-once semantics of a
JavaScript promise is modelled by the `PromiseState` fold.
-/

set_option autoImplicit false

namespace Gateway

/-! ## JavaScript `Map` as an insertion-ordered association list -/

/-- `map.get(k)`: value of the first (and in a real `Map`, only) entry with key `k`. -/
def mapGet {α : Type} (l : List (String × α)) (k : String) : Option α :=
  (l.find? (fun p => p.1 == k)).map Prod.snd

/-- `map.set(k, v)`: replace the first entry with key `k`, or append a new entry. -/
def mapSet {α : Type} : List (String × α) → String → α → List (String × α)
  | [], k, v => [(k, v)]
  | p :: rest, k, v => if p.1 == k then (k, v) :: rest else p :: mapSet rest k v

/-- `map.delete(k)`: remove the first entry with key `k`. -/
def mapDelete {α : Type} : List (String × α) → String → List (String × α)
  | [], _ => []
  | p :: rest, k => if p.1 == k then rest else p :: mapDelete rest k

/-- `map.has(k)`. -/
def mapHas {α : Type} (l : List (String × α)) (k : String) : Bool :=
  (l.find? (fun p => p.1 == k)).isSome

/-! ## Protocol codec (`src/protocol.js`) -/

/-- JavaScript truthiness of an optional string field: `undefined` and the
empty string are falsy. -/
def strTruthy : Option String → Bool
  | none => false
  | some s => !(s == "")

/-- JavaScript `s.startsWith(t)`, modelled over the character lists of the
two strings. -/
def strStartsWith (s t : String) : Bool := t.data.isPrefixOf s.data

/-- `isValidPhoneNumber` (`src/protocol.js:235`): the regular expression
`^\+[1-9]\d{1,14}$` applied to the input string (non-strings and the empty
string are rejected up front, which the string model subsumes). -/
def isValidPhoneNumber (s : String) : Bool :=
  match s.data with
  | '+' :: c :: rest =>
      ('1' ≤ c && c ≤ '9') &&
      (1 ≤ rest.length && rest.length ≤ 14) &&
      rest.all (fun d => '0' ≤ d && d ≤ '9')
  | _ => false

/-- Result of a send-data validator: `{ valid: true }` or `{ valid: false, error }`. -/
inductive VResult where
  | ok
  | err (msg : String)
deriving DecidableEq, Repr

/-- Input of `validateSendMessageData`. -/
structure SendMessageData where
  phoneNumber : String
  message : Option String
deriving DecidableEq, Repr

/-- Input of `validateSendImageData`. -/
structure SendImageData where
  phoneNumber : String
  imageUrl : Option String
  imageDataUrl : Option String
  caption : Option String
deriving DecidableEq, Repr

/-- Input of `validateSendVideoData`. -/
structure SendVideoData where
  phoneNumber : String
  videoUrl : Option String
  videoDataUrl : Option String
  caption : Option String
deriving DecidableEq, Repr

/-- Input of `validateSendDocumentData`. -/
structure SendDocumentData where
  phoneNumber : String
  documentUrl : Option String
  documentDataUrl : Option String
  documentName : Option String
  caption : Option String
deriving DecidableEq, Repr

/-- `validateSendMessageData` (`src/protocol.js:251`). -/
def validateSendMessageData (d : SendMessageData) : VResult :=
  if !isValidPhoneNumber d.phoneNumber then
    .err "Invalid phone number format. Use international format: +1234567890"
  else if !(strTruthy d.message) || ((d.message.getD "").trim.length == 0) then
    .err "Message cannot be empty"
  else .ok

/-- `validateSendImageData` (`src/protocol.js:272`). -/
def validateSendImageData (d : SendImageData) : VResult :=
  if !isValidPhoneNumber d.phoneNumber then
    .err "Invalid phone number format. Use international format: +1234567890"
  else if !(strTruthy d.imageUrl) && !(strTruthy d.imageDataUrl) then
    .err "Either imageUrl or imageDataUrl is required"
  else if strTruthy d.imageDataUrl && !(strStartsWith (d.imageDataUrl.getD "") "data:image/") then
    .err "Invalid imageDataUrl format. Must start with data:image/"
  else .ok

/-- `validateSendVideoData` (`src/protocol.js:297`). -/
def validateSendVideoData (d : SendVideoData) : VResult :=
  if !isValidPhoneNumber d.phoneNumber then
    .err "Invalid phone number format. Use international format: +1234567890"
  else if !(strTruthy d.videoUrl) && !(strTruthy d.videoDataUrl) then
    .err "Either videoUrl or videoDataUrl is required"
  else if strTruthy d.videoDataUrl && !(strStartsWith (d.videoDataUrl.getD "") "data:video/") then
    .err "Invalid videoDataUrl format. Must start with data:video/"
  else .ok

/-- `validateSendDocumentData` (`src/protocol.js:322`). -/
def validateSendDocumentData (d : SendDocumentData) : VResult :=
  if !isValidPhoneNumber d.phoneNumber then
    .err "Invalid phone number format. Use international format: +1234567890"
  else if !(strTruthy d.documentUrl) && !(strTruthy d.documentDataUrl) then
    .err "Either documentUrl or documentDataUrl is required"
  else if !(strTruthy d.documentName) then
    .err "documentName is required"
  else .ok

/-! ## Data model (`src/session-manager.js`) -/

/-- Error codes carried by rejections of pending requests
(`src/index.js` `ERROR_CODES`; only the codes the correlator emits). -/
inductive ErrCode where
  | REQUEST_TIMEOUT
  | CONNECTION_LOST
  | GATEWAY_SHUTDOWN
deriving DecidableEq, Repr

/-- The validated `message-result` payload handed to `resolve` (`src/protocol.js:93`). -/
structure MessageResultData where
  requestId : String
  success : Bool
  error : Option String
  timestamp : Nat
deriving DecidableEq, Repr

/-- One in-flight outbound command
(`{ resolve, reject, timeoutId, createdAt, type }`): the `resolve`/`reject`
closure pair of the caller's promise is modelled by the promise identifier
`promiseId`. -/
structure PendingRequest where
  promiseId : Nat
  timeoutId : Nat
  createdAt : Nat
  kind : String
deriving DecidableEq, Repr

/-- One authenticated device connection (the session object built in
`SessionManager.addSession`); the WebSocket handle is an opaque number. -/
structure Session where
  sessionId : String
  apiKey : String
  ws : Nat
  ip : String
  deviceActive : Bool
  connectedAt : Nat
  lastHeartbeat : Nat
  extensionVersion : Option String
  browser : Option String
  pendingRequests : List (String × PendingRequest)
deriving DecidableEq, Repr

/-- The `metadata` argument of `addSession`. -/
structure SessionMetadata where
  ip : Option String := none
  extensionVersion : Option String := none
  browser : Option String := none
deriving DecidableEq, Repr

/-- The configured device-selection strategy. -/
inductive SelectionStrategy where
  | roundRobin
  | random
deriving DecidableEq, Repr

/-- Observable side effects of registry/correlator operations:
`clearTimeout` on a pending request's timer, settling the caller's promise
(resolve or reject), and invoking the stale-session hook. -/
inductive Effect where
  | clearTimeout (timeoutId : Nat)
  | resolveHandle (promiseId : Nat) (result : Option MessageResultData)
  | rejectHandle (promiseId : Nat) (code : ErrCode)
  | hookStale (s : Session)
deriving DecidableEq, Repr

/-- The `SessionManager` instance: configuration plus the two maps
(`this.sessions`, `this.roundRobinCounters`). -/
structure SessionManager where
  heartbeatInterval : Nat := 30000
  maxSessionsPerKey : Nat := 10
  heartbeatTimeout : Nat := 60000
  deviceSelectionStrategy : SelectionStrategy := .roundRobin
  sessions : List (String × List Session) := []
  roundRobinCounters : List (String × Nat) := []
deriving DecidableEq, Repr

/-- A fresh `new SessionManager()` with the default configuration. -/
def initialManager : SessionManager := {}

/-! ## Registry and correlator operations -/

/-- Scan one credential's bucket for the first session with the given id
(the `sessions.find(...)` step of `getSession`). -/
def bucketFind (l : List Session) (sid : String) : Option Session :=
  l.find? (fun s => s.sessionId == sid)

/-- `SessionManager.getSession` scans the buckets in insertion order and
returns the first session whose id matches. -/
def getSessionList : List (String × List Session) → String → Option Session
  | [], _ => none
  | (_, l) :: rest, sid =>
    match bucketFind l sid with
    | some s => some s
    | none => getSessionList rest sid

def SessionManager.getSession (m : SessionManager) (sid : String) : Option Session :=
  getSessionList m.sessions sid

/-- `SessionManager.getSessions` (`this.sessions.get(apiKey) || []`). -/
def SessionManager.getSessions (m : SessionManager) (apiKey : String) : List Session :=
  (mapGet m.sessions apiKey).getD []

/-- `SessionManager.getActiveSessions`: the bucket filtered to `deviceActive`. -/
def SessionManager.getActiveSessions (m : SessionManager) (apiKey : String) : List Session :=
  (m.getSessions apiKey).filter (fun s => s.deviceActive)

/-- `SessionManager.addSession` (`session-manager.js:33`): reject over
capacity, otherwise append a fresh inactive session to the credential's
bucket.  The generated uuid and `Date.now()` are passed in as `freshId` and
`now`. -/
def SessionManager.addSession (m : SessionManager) (apiKey : String) (ws : Nat)
    (meta : SessionMetadata) (freshId : String) (now : Nat) :
    Except String (Session × SessionManager) :=
  let existing := (mapGet m.sessions apiKey).getD []
  if m.maxSessionsPerKey ≤ existing.length then
    .error "MAX_SESSIONS_EXCEEDED"
  else
    let s : Session :=
      { sessionId := freshId
        apiKey := apiKey
        ws := ws
        ip := meta.ip.getD "unknown"
        deviceActive := false
        connectedAt := now
        lastHeartbeat := now
        extensionVersion := meta.extensionVersion
        browser := meta.browser
        pendingRequests := [] }
    .ok (s, { m with sessions := mapSet m.sessions apiKey (existing ++ [s]) })

/-- The `findIndex`/`splice` step of `removeSession`: remove the first
session with the given id from a bucket, returning it together with the
remaining bucket. -/
def removeFromBucket : List Session → String → Option (Session × List Session)
  | [], _ => none
  | s :: rest, sid =>
    if s.sessionId == sid then some (s, rest)
    else (removeFromBucket rest sid).map (fun p => (p.1, s :: p.2))

/-- The rejection loop of `removeSession`: for every pending request, in
table order, `clearTimeout` then reject with `CONNECTION_LOST`. -/
def pendingRejectEffects (s : Session) : List Effect :=
  s.pendingRequests.flatMap
    (fun p => [Effect.clearTimeout p.2.timeoutId,
               Effect.rejectHandle p.2.promiseId ErrCode.CONNECTION_LOST])

/-- The bucket scan of `removeSession`: returns whether a session was found,
the new bucket list, the emitted effects, and the credential key whose
bucket became empty (if any). -/
def removeSessionList : List (String × List Session) → String →
    Bool × List (String × List Session) × List Effect × Option String
  | [], _ => (false, [], [], none)
  | (k, l) :: rest, sid =>
    match removeFromBucket l sid with
    | some (s, l') =>
      if l'.isEmpty then (true, rest, pendingRejectEffects s, some k)
      else (true, (k, l') :: rest, pendingRejectEffects s, none)
    | none =>
      let r := removeSessionList rest sid
      (r.1, (k, l) :: r.2.1, r.2.2.1, r.2.2.2)

/-- `SessionManager.removeSession` (`session-manager.js:69`). -/
def SessionManager.removeSession (m : SessionManager) (sid : String) :
    Bool × SessionManager × List Effect :=
  let r := removeSessionList m.sessions sid
  (r.1,
   { m with
     sessions := r.2.1
     roundRobinCounters :=
       match r.2.2.2 with
       | some k => mapDelete m.roundRobinCounters k
       | none => m.roundRobinCounters },
   r.2.2.1)

/-- In-place mutation of the session object returned by `getSession`:
update the first matching session of a bucket. -/
def updateBucket : List Session → String → (Session → Session) → List Session
  | [], _, _ => []
  | s :: rest, sid, f =>
    if s.sessionId == sid then f s :: rest else s :: updateBucket rest sid f

/-- Apply `f` to the first session with id `sid` across the buckets, in the
same scan order as `getSession`; identity when no session matches. -/
def updateSessionsList : List (String × List Session) → String → (Session → Session) →
    List (String × List Session)
  | [], _, _ => []
  | (k, l) :: rest, sid, f =>
    if (bucketFind l sid).isSome then (k, updateBucket l sid f) :: rest
    else (k, l) :: updateSessionsList rest sid f

def SessionManager.updateSession (m : SessionManager) (sid : String)
    (f : Session → Session) : SessionManager :=
  { m with sessions := updateSessionsList m.sessions sid f }

/-- `SessionManager.updateSessionStatus` (`session-manager.js:163`):
`deviceActive = whatsappLoggedIn && ready`, no-op when the session is gone. -/
def SessionManager.updateSessionStatus (m : SessionManager) (sid : String)
    (whatsappLoggedIn ready : Bool) : SessionManager :=
  m.updateSession sid (fun s => { s with deviceActive := whatsappLoggedIn && ready })

/-- `SessionManager.updateHeartbeat` (`session-manager.js:174`). -/
def SessionManager.updateHeartbeat (m : SessionManager) (sid : String) (now : Nat) :
    SessionManager :=
  m.updateSession sid (fun s => { s with lastHeartbeat := now })

/-- `SessionManager.addPendingRequest` (`session-manager.js:187`). -/
def SessionManager.addPendingRequest (m : SessionManager) (sid rid : String)
    (pr : PendingRequest) : SessionManager :=
  m.updateSession sid (fun s => { s with pendingRequests := mapSet s.pendingRequests rid pr })

/-- `SessionManager.resolvePendingRequest` (`session-manager.js:201`): find
the session and the entry; if both exist, disarm the timer, resolve the
caller's promise with `result`, delete the entry and return `true`;
otherwise do nothing and return `false`. -/
def SessionManager.resolvePendingRequest (m : SessionManager) (sid rid : String)
    (result : Option MessageResultData) : Bool × SessionManager × List Effect :=
  match m.getSession sid with
  | none => (false, m, [])
  | some s =>
    match mapGet s.pendingRequests rid with
    | none => (false, m, [])
    | some pr =>
      (true,
       m.updateSession sid
         (fun t => { t with pendingRequests := mapDelete t.pendingRequests rid }),
       [Effect.clearTimeout pr.timeoutId, Effect.resolveHandle pr.promiseId result])

/-- `SessionManager.getSessionForSending` (`session-manager.js:134`).  The
`Math.random()` draw of the random strategy is supplied as `rand`, used
modulo the active-set size. -/
def SessionManager.getSessionForSending (m : SessionManager) (apiKey : String)
    (rand : Nat) : Option Session × SessionManager :=
  let activeSessions := m.getActiveSessions apiKey
  match activeSessions with
  | [] => (none, m)
  | [s] => (some s, m)
  | _ =>
    match m.deviceSelectionStrategy with
    | .random => (activeSessions[(rand % activeSessions.length)]?, m)
    | .roundRobin =>
      let counter := (mapGet m.roundRobinCounters apiKey).getD 0
      (activeSessions[(counter % activeSessions.length)]?,
       { m with roundRobinCounters := mapSet m.roundRobinCounters apiKey (counter + 1) })

/-- `SessionManager.getTotalSessionCount` (`session-manager.js:217`). -/
def SessionManager.getTotalSessionCount (m : SessionManager) : Nat :=
  m.sessions.foldl (fun n p => n + p.2.length) 0

/-- One entry of `getSessionInfo`'s result. -/
structure SessionInfo where
  sessionId : String
  deviceActive : Bool
  connectedAt : Nat
  lastHeartbeat : Nat
  extensionVersion : Option String
  browser : Option String
deriving DecidableEq, Repr

/-- The projection applied by `getSessionInfo` to each session. -/
def Session.info (s : Session) : SessionInfo :=
  { sessionId := s.sessionId
    deviceActive := s.deviceActive
    connectedAt := s.connectedAt
    lastHeartbeat := s.lastHeartbeat
    extensionVersion := s.extensionVersion
    browser := s.browser }

/-- `SessionManager.getSessionInfo` (`session-manager.js:303`): a snapshot of
every session registered under the credential, whatever its `deviceActive`
flag. -/
def SessionManager.getSessionInfo (m : SessionManager) (apiKey : String) : List SessionInfo :=
  (m.getSessions apiKey).map Session.info

/-! ## Liveness sweep (`startHeartbeatMonitor`, `session-manager.js:237`) -/

/-- The stale-id snapshot taken at the start of a monitor tick: ids of all
sessions whose time since the last heartbeat exceeds the configured timeout
(scanned in bucket order). -/
def staleSessionIds (m : SessionManager) (now : Nat) : List String :=
  m.sessions.flatMap
    (fun p => p.2.filterMap
      (fun s => if m.heartbeatTimeout < now - s.lastHeartbeat then some s.sessionId else none))

/-- The eviction loop of a tick: for each snapshotted id, look the session
up, invoke the stale hook if it is still present, then `removeSession`. -/
def evictStale : SessionManager × List Effect → List String → SessionManager × List Effect
  | acc, [] => acc
  | (m, effs), sid :: rest =>
    let hook : List Effect :=
      match m.getSession sid with
      | some s => [Effect.hookStale s]
      | none => []
    let r := m.removeSession sid
    evictStale (r.2.1, effs ++ hook ++ r.2.2) rest

/-- One tick of the heartbeat monitor: snapshot the stale ids, then evict
them one by one. -/
def SessionManager.heartbeatTick (m : SessionManager) (now : Nat) :
    SessionManager × List Effect :=
  evictStale (m, []) (staleSessionIds m now)

/-! ## Broker façade (`src/gateway.js`) -/

/-- The per-connection temporary data `ws._tempData` together with the
socket's readiness (`ws.readyState === 1`). -/
structure ConnState where
  authenticated : Bool
  sessionId : Option String
  wsOpen : Bool
deriving DecidableEq, Repr

/-- Envelopes the façade writes back on a connection's socket. -/
inductive OutMsg where
  | errorEnvelope (code msg : String)
  | authSuccess (sessionId : String)
  | logMessage (requestId : String) (success : Bool)
deriving DecidableEq, Repr

/-- `_sendError` (`gateway.js:393`): emit an `error` envelope only when the
socket is open. -/
def sendError (c : ConnState) (code msg : String) : List OutMsg :=
  if c.wsOpen then [OutMsg.errorEnvelope code msg] else []

/-- `_handleStatusMessage` (`gateway.js:297`): before authentication, reply
`NOT_AUTHENTICATED`; afterwards update the session's `deviceActive` flag. -/
def handleStatusMessage (c : ConnState) (m : SessionManager)
    (whatsappLoggedIn ready : Bool) : SessionManager × List OutMsg :=
  if !c.authenticated then (m, sendError c "NOT_AUTHENTICATED" "Not authenticated")
  else (m.updateSessionStatus (c.sessionId.getD "") whatsappLoggedIn ready, [])

/-- `_handleMessageResult` (`gateway.js:313`): before authentication, return
silently; afterwards delegate to `resolvePendingRequest` and, when it
resolved, log the message. -/
def handleMessageResult (c : ConnState) (m : SessionManager)
    (data : MessageResultData) : SessionManager × List OutMsg × List Effect :=
  if !c.authenticated then (m, [], [])
  else
    let r := m.resolvePendingRequest (c.sessionId.getD "") data.requestId (some data)
    if r.1 then (r.2.1, [OutMsg.logMessage data.requestId data.success], r.2.2)
    else (r.2.1, [], r.2.2)

/-- `_handleHeartbeat` (`gateway.js:347`): before authentication, return
silently; afterwards refresh the session's heartbeat timestamp. -/
def handleHeartbeat (c : ConnState) (m : SessionManager) (now : Nat) :
    SessionManager × List OutMsg :=
  if !c.authenticated then (m, [])
  else (m.updateHeartbeat (c.sessionId.getD "") now, [])

/-! ## Promise settle-once semantics

The completion handle of a pending request is a JavaScript promise: the
first of `resolve`/`reject` to run settles it, every later settlement
attempt is a no-op. -/

inductive PromiseState where
  | pending
  | fulfilled (v : Option MessageResultData)
  | rejected (e : ErrCode)
deriving DecidableEq, Repr

/-- Apply one emitted effect to the promise identified by `p`. -/
def stepPromise (p : Nat) (st : PromiseState) : Effect → PromiseState
  | .resolveHandle q v => if q == p then (match st with | .pending => .fulfilled v | _ => st) else st
  | .rejectHandle q e => if q == p then (match st with | .pending => .rejected e | _ => st) else st
  | _ => st

/-- Run a list of effects, in order, against the promise identified by `p`. -/
def runPromise (p : Nat) (st : PromiseState) (effs : List Effect) : PromiseState :=
  effs.foldl (stepPromise p) st

/-- The `setTimeout` callback armed by `sendMessage`/`sendImage`/`sendVideo`/
`sendDocument` (`gateway.js:437`): first
`resolvePendingRequest(sessionId, requestId, null)` — which, when the entry
is still pending, settles the caller's promise with `null` — then
`reject(REQUEST_TIMEOUT)` on the same promise `p`. -/
def sendTimeoutFire (m : SessionManager) (sid rid : String) (p : Nat) :
    SessionManager × List Effect :=
  let r := m.resolvePendingRequest sid rid none
  (r.2.1, r.2.2 ++ [Effect.rejectHandle p ErrCode.REQUEST_TIMEOUT])

/-- The closed-socket branch of the send operations (`gateway.js:452`): when
`ws.readyState !== 1` right after registering the pending entry, the code
runs `clearTimeout`, `resolvePendingRequest(sessionId, requestId, null)` and
then `reject(CONNECTION_LOST)` on the same promise `p`. -/
def sendSocketClosedFire (m : SessionManager) (sid rid : String) (timeoutId p : Nat) :
    SessionManager × List Effect :=
  let r := m.resolvePendingRequest sid rid none
  (r.2.1, Effect.clearTimeout timeoutId :: r.2.2 ++ [Effect.rejectHandle p ErrCode.CONNECTION_LOST])

/-- `WhatsAppGateway.getActiveSessions` (`gateway.js:671`): delegate to the
registry's `getSessionInfo` snapshot; the registry state is returned
untouched, mirroring that the method performs no mutation. -/
def facadeGetActiveSessions (m : SessionManager) (apiKey : String) :
    List SessionInfo × SessionManager :=
  (m.getSessionInfo apiKey, m)

/-! ## Operation sequences over the registry -/

/-- A register (`addSession`) or unregister (`removeSession`) step, with the
environment-supplied arguments (socket handle, metadata, fresh uuid,
current time) recorded in the operation. -/
inductive RegOp where
  | add (apiKey : String) (ws : Nat) (meta : SessionMetadata) (freshId : String) (now : Nat)
  | remove (sid : String)
deriving Repr

/-- Apply one operation; a rejected `addSession` (capacity) leaves the
registry unchanged, exactly as the thrown exception does in the source. -/
def applyRegOp (m : SessionManager) : RegOp → SessionManager
  | .add apiKey ws meta freshId now =>
    match m.addSession apiKey ws meta freshId now with
    | .ok r => r.2
    | .error _ => m
  | .remove sid => (m.removeSession sid).2.1

def runRegOps (m : SessionManager) (ops : List RegOp) : SessionManager :=
  ops.foldl applyRegOp m

/-- Iterated `getSessionForSending` with no interleaved churn; the random
draw is irrelevant under the round-robin strategy and fixed at 0. -/
def selectN (m : SessionManager) (apiKey : String) : Nat → List (Option Session) × SessionManager
  | 0 => ([], m)
  | n + 1 =>
    let r := m.getSessionForSending apiKey 0
    let rest := selectN r.2 apiKey n
    (r.1 :: rest.1, rest.2)

/-! ## Concrete states used by the theorems -/

/-- A pending text-message request whose completion handle is promise `0`
and whose timer id is `5`. -/
def prC1 : PendingRequest := { promiseId := 0, timeoutId := 5, createdAt := 0, kind := "message" }

/-- A session with one in-flight request `r1`. -/
def sessC1 : Session :=
  { sessionId := "s1", apiKey := "k1", ws := 0, ip := "unknown", deviceActive := true
    connectedAt := 0, lastHeartbeat := 0, extensionVersion := none, browser := none
    pendingRequests := [("r1", prC1)] }

/-- A registry with a single session holding one pending request. -/
def mgrC1 : SessionManager := { sessions := [("k1", [sessC1])] }

/-- A connection that has not yet authenticated, with an open socket. -/
def connPre : ConnState := { authenticated := false, sessionId := none, wsOpen := true }

/-- A validated `message-result` payload. -/
def resC8 : MessageResultData := { requestId := "r1", success := true, error := none, timestamp := 0 }

/-- A registry holding one active and one inactive session under `"K"`. -/
def mgrC10 : SessionManager :=
  { sessions :=
      [("K",
        [{ sessionId := "SA", apiKey := "K", ws := 0, ip := "u", deviceActive := true
           connectedAt := 0, lastHeartbeat := 0, extensionVersion := none, browser := none
           pendingRequests := [] },
         { sessionId := "SB", apiKey := "K", ws := 1, ip := "u", deviceActive := false
           connectedAt := 0, lastHeartbeat := 0, extensionVersion := none, browser := none
           pendingRequests := [] }])] }

/-- The registry after one `register` under credential `"k"`. -/
def mgrC4 : SessionManager :=
  runRegOps initialManager [RegOp.add "k" 0 {} "s1" 0]

/-- The flattened list of session ids, in registry scan order. -/
def sessionsIdList (bs : List (String × List Session)) : List String :=
  bs.flatMap (fun p => p.2.map Session.sessionId)

/-- An active session with no pending requests, for the round-robin
scenario. -/
def sessRR (i : String) : Session :=
  { sessionId := i, apiKey := "K", ws := 0, ip := "u", deviceActive := true
    connectedAt := 0, lastHeartbeat := 0, extensionVersion := none, browser := none
    pendingRequests := [] }

/-- Three active sessions registered under credential `"K"`, in insertion
order `S1, S2, S3`, with a fresh round-robin cursor. -/
def mgrC5 : SessionManager :=
  { sessions := [("K", [sessRR "S1", sessRR "S2", sessRR "S3"])] }

/-- A session that last heartbeated at time 0 and owns one pending
request. -/
def sStaleC7 : Session :=
  { sessionId := "S1", apiKey := "K", ws := 0, ip := "u", deviceActive := true
    connectedAt := 0, lastHeartbeat := 0, extensionVersion := none, browser := none
    pendingRequests := [("r9", prC1)] }

/-- A session that heartbeated recently. -/
def sFreshC7 : Session :=
  { sessionId := "S2", apiKey := "K", ws := 1, ip := "u", deviceActive := true
    connectedAt := 0, lastHeartbeat := 100000, extensionVersion := none, browser := none
    pendingRequests := [] }

/-- A registry with one stale and one fresh session under `"K"` (default
60s heartbeat timeout). -/
def mgrC7 : SessionManager :=
  { sessions := [("K", [sStaleC7, sFreshC7])] }

/-! ## Association-list and scan lemmas -/

theorem mapGet_mapSet_self {α : Type} (l : List (String × α)) (k : String) (v : α) :
    mapGet (mapSet l k v) k = some v := by
  induction l with
  | nil => simp [mapSet, mapGet]
  | cons p rest ih =>
    cases hp : p.1 == k with
    | true => simp [mapSet, hp, mapGet, List.find?_cons]
    | false => simpa [mapSet, hp, mapGet, List.find?_cons] using ih

theorem mapGet_mapSet_ne {α : Type} (l : List (String × α)) (k k' : String) (v : α)
    (h : (k' == k) = false) : mapGet (mapSet l k v) k' = mapGet l k' := by
  have hkk' : (k == k') = false :=
    beq_eq_false_iff_ne.mpr (fun e => (beq_eq_false_iff_ne.mp h) e.symm)
  induction l with
  | nil => simp [mapSet, mapGet, List.find?_cons, hkk']
  | cons p rest ih =>
    cases hp : p.1 == k with
    | true =>
      have hp1 : p.1 = k := by simpa using hp
      simp [mapSet, hp, mapGet, List.find?_cons, hkk', hp1]
    | false =>
      cases hq : p.1 == k' with
      | true => simp [mapSet, hp, mapGet, List.find?_cons, hq]
      | false => simpa [mapSet, hp, mapGet, List.find?_cons, hq] using ih

theorem mapGet_mapDelete_self {α : Type} (l : List (String × α)) (k : String)
    (hnd : (l.map Prod.fst).Nodup) : mapGet (mapDelete l k) k = none := by
  induction l with
  | nil => rfl
  | cons p rest ih =>
    simp only [List.map_cons, List.nodup_cons] at hnd
    cases hp : p.1 == k with
    | true =>
      have hp1 : p.1 = k := by simpa using hp
      have hdel : mapDelete (p :: rest) k = rest := by simp [mapDelete, hp]
      rw [hdel, mapGet, Option.map_eq_none', List.find?_eq_none]
      intro q hq hbeq
      have hq1 : q.1 = k := by simpa using hbeq
      have : p.1 ∈ List.map Prod.fst rest := by
        rw [hp1, ← hq1]; exact List.mem_map_of_mem Prod.fst hq
      exact hnd.1 this
    | false =>
      have hdel : mapDelete (p :: rest) k = p :: mapDelete rest k := by simp [mapDelete, hp]
      rw [hdel]
      simpa [mapGet, List.find?_cons, hp] using ih hnd.2

theorem bucketFind_updateBucket (l : List Session) (sid : String) (f : Session → Session)
    (hf : ∀ s, (f s).sessionId = s.sessionId) :
    bucketFind (updateBucket l sid f) sid = (bucketFind l sid).map f := by
  induction l with
  | nil => rfl
  | cons s rest ih =>
    cases h : s.sessionId == sid with
    | true =>
      have hfs : ((f s).sessionId == sid) = true := by rw [hf s]; exact h
      simp [updateBucket, bucketFind, List.find?_cons, h, hfs]
    | false =>
      have hfs : ((f s).sessionId == sid) = false := by rw [hf s]; exact h
      simpa [updateBucket, bucketFind, List.find?_cons, h, hfs] using ih

theorem getSessionList_update (bs : List (String × List Session)) (sid : String)
    (f : Session → Session) (hf : ∀ s, (f s).sessionId = s.sessionId) :
    getSessionList (updateSessionsList bs sid f) sid = (getSessionList bs sid).map f := by
  induction bs with
  | nil => rfl
  | cons p rest ih =>
    obtain ⟨k, l⟩ := p
    cases hb : bucketFind l sid with
    | some s =>
      simp [updateSessionsList, getSessionList, hb, bucketFind_updateBucket l sid f hf]
    | none =>
      simpa [updateSessionsList, getSessionList, hb] using ih

theorem getSession_updateSession (m : SessionManager) (sid : String)
    (f : Session → Session) (hf : ∀ s, (f s).sessionId = s.sessionId) :
    (m.updateSession sid f).getSession sid = (m.getSession sid).map f :=
  getSessionList_update m.sessions sid f hf

/-! ## C2 — at-most-once resolution -/

/-- C2.  `resolvePendingRequest` is at-most-once: when the session exists
and holds the pending entry (its table being a well-formed map, keys
without duplicates), the first call returns `true`, disarms exactly that
entry's timer and resolves its completion handle; the immediate second call
with the same session id and request id returns `false`, leaves the
registry untouched and emits no further effect on any completion handle. -/
theorem resolvePendingRequest_at_most_once
    (m : SessionManager) (sid rid : String) (r₁ r₂ : Option MessageResultData)
    (s : Session) (pr : PendingRequest)
    (hs : m.getSession sid = some s)
    (hpr : mapGet s.pendingRequests rid = some pr)
    (hnd : (s.pendingRequests.map Prod.fst).Nodup) :
    (m.resolvePendingRequest sid rid r₁).1 = true ∧
    (m.resolvePendingRequest sid rid r₁).2.2 =
      [Effect.clearTimeout pr.timeoutId, Effect.resolveHandle pr.promiseId r₁] ∧
    (m.resolvePendingRequest sid rid r₁).2.1.resolvePendingRequest sid rid r₂ =
      (false, (m.resolvePendingRequest sid rid r₁).2.1, []) := by
  have h1 : m.resolvePendingRequest sid rid r₁ =
      (true,
       m.updateSession sid
         (fun t => { t with pendingRequests := mapDelete t.pendingRequests rid }),
       [Effect.clearTimeout pr.timeoutId, Effect.resolveHandle pr.promiseId r₁]) := by
    simp only [SessionManager.resolvePendingRequest, hs, hpr]
  refine ⟨by rw [h1], by rw [h1], ?_⟩
  rw [h1]
  have h2 : (m.updateSession sid
      (fun t => { t with pendingRequests := mapDelete t.pendingRequests rid })).getSession sid =
      some { s with pendingRequests := mapDelete s.pendingRequests rid } := by
    have := getSession_updateSession m sid
      (fun t => { t with pendingRequests := mapDelete t.pendingRequests rid }) (fun t => rfl)
    rw [hs, Option.map_some'] at this
    exact this
  simp only [SessionManager.resolvePendingRequest, h2,
    mapGet_mapDelete_self s.pendingRequests rid hnd]

/-- C2 witness: the theorem applied to a registry whose session `s1` holds
the single pending request `r1`. -/
theorem resolvePendingRequest_at_most_once_witness :
    (mgrC1.resolvePendingRequest "s1" "r1" none).1 = true ∧
    (mgrC1.resolvePendingRequest "s1" "r1" none).2.2 =
      [Effect.clearTimeout 5, Effect.resolveHandle 0 none] ∧
    (mgrC1.resolvePendingRequest "s1" "r1" none).2.1.resolvePendingRequest "s1" "r1" none =
      (false, (mgrC1.resolvePendingRequest "s1" "r1" none).2.1, []) := by
  have h := resolvePendingRequest_at_most_once mgrC1 "s1" "r1" none none sessC1 prC1
    (by decide) (by decide) (by decide)
  exact ⟨h.1, h.2.1, h.2.2⟩

/-! ## C1 — the timeout path of the send operations -/

/-- C1.  The claim says a pending request whose timeout fires before an
acknowledgment fails the caller's call with `REQUEST_TIMEOUT`.  Evaluating
the armed timeout callback on a registry whose request `r1` is still
pending shows the opposite: `resolvePendingRequest(sessionId, requestId,
null)` settles the caller's promise by *fulfilling* it with `null` before
the `REQUEST_TIMEOUT` rejection runs, so the rejection is a no-op and the
caller's call completes successfully with a non-acknowledgment value. -/
theorem sendTimeout_fulfills_null :
    runPromise 0 PromiseState.pending (sendTimeoutFire mgrC1 "s1" "r1" 0).2 =
      PromiseState.fulfilled none ∧
    runPromise 0 PromiseState.pending (sendTimeoutFire mgrC1 "s1" "r1" 0).2 ≠
      PromiseState.rejected ErrCode.REQUEST_TIMEOUT := by
  constructor
  · rfl
  · decide

/-! ## C3 — the phone-number validator -/

/-- C3 counterexample.  The claim states that `isValidPhoneNumber` accepts
`"+1"` (one digit after the plus); the regular expression
`^\+[1-9]\d{1,14}$` demands at least one further digit after the `[1-9]`
class, so the code rejects it. -/
theorem isValidPhoneNumber_plus_one : isValidPhoneNumber "+1" = false := by decide

/-- C3 (amended).  `isValidPhoneNumber` returns `true` exactly for strings
consisting of `'+'` followed by 2–15 digits whose first digit is 1–9; in
particular `"+1234567890"` is accepted, `"+0123456789"` (leading zero),
`"1234567890"` (missing plus) and `"+1"` (a single digit) are rejected. -/
theorem isValidPhoneNumber_spec :
    (∀ s : String, isValidPhoneNumber s = true ↔
      ∃ c rest, s.data = '+' :: c :: rest ∧ '1' ≤ c ∧ c ≤ '9' ∧
        1 ≤ rest.length ∧ rest.length ≤ 14 ∧ ∀ d ∈ rest, '0' ≤ d ∧ d ≤ '9') ∧
    isValidPhoneNumber "+1234567890" = true ∧
    isValidPhoneNumber "+0123456789" = false ∧
    isValidPhoneNumber "1234567890" = false ∧
    isValidPhoneNumber "+1" = false := by
  refine ⟨fun s => ?_, by decide, by decide, by decide, by decide⟩
  unfold isValidPhoneNumber
  split
  case h_1 c rest heq =>
    simp only [Bool.and_eq_true, decide_eq_true_eq, List.all_eq_true, heq]
    constructor
    · rintro ⟨⟨⟨h1, h2⟩, h3, h4⟩, h5⟩
      exact ⟨c, rest, rfl, h1, h2, h3, h4, fun d hd => (h5 d hd)⟩
    · rintro ⟨c', rest', hdata, h1, h2, h3, h4, h5⟩
      obtain ⟨rfl, rfl⟩ : c = c' ∧ rest = rest' := by
        injection hdata with _ h
        injection h with hc hr
        exact ⟨hc, hr⟩
      exact ⟨⟨⟨h1, h2⟩, h3, h4⟩, fun d hd => h5 d hd⟩
  case h_2 hno =>
    simp only [Bool.false_eq_true, false_iff]
    rintro ⟨c, rest, hdata, -⟩
    exact hno c rest hdata

/-! ## C9 — the media send-data validators -/

/-- C9 counterexample.  The claim demands that exactly one of the embedded
payload and the URL reference be present; the code only requires at least
one, so an input carrying both a fetchable `imageUrl` and an embedded
`imageDataUrl` (with the correct family) is accepted. -/
theorem validateSendImageData_accepts_both :
    validateSendImageData
      { phoneNumber := "+1234567890"
        imageUrl := some "http://example.com/a.png"
        imageDataUrl := some "data:image/png;base64,AA"
        caption := none } = VResult.ok ∧
    strTruthy (some "http://example.com/a.png") = true ∧
    strTruthy (some "data:image/png;base64,AA") = true := by
  refine ⟨by decide, by decide, by decide⟩

/-- C9 (amended).  Each media validator accepts exactly the inputs with a
valid phone number and **at least** one of the embedded payload and the URL
reference present, where a present embedded payload must carry the expected
media-family `data:` header (`data:image/` for image, `data:video/` for
video, arbitrary for document), and a document additionally needs a
non-empty file name string. -/
theorem media_validators_spec :
    (∀ d : SendImageData, validateSendImageData d = VResult.ok ↔
      (isValidPhoneNumber d.phoneNumber = true ∧
       (strTruthy d.imageUrl = true ∨ strTruthy d.imageDataUrl = true) ∧
       (strTruthy d.imageDataUrl = true →
         strStartsWith (d.imageDataUrl.getD "") "data:image/" = true))) ∧
    (∀ d : SendVideoData, validateSendVideoData d = VResult.ok ↔
      (isValidPhoneNumber d.phoneNumber = true ∧
       (strTruthy d.videoUrl = true ∨ strTruthy d.videoDataUrl = true) ∧
       (strTruthy d.videoDataUrl = true →
         strStartsWith (d.videoDataUrl.getD "") "data:video/" = true))) ∧
    (∀ d : SendDocumentData, validateSendDocumentData d = VResult.ok ↔
      (isValidPhoneNumber d.phoneNumber = true ∧
       (strTruthy d.documentUrl = true ∨ strTruthy d.documentDataUrl = true) ∧
       strTruthy d.documentName = true)) := by
  refine ⟨fun d => ?_, fun d => ?_, fun d => ?_⟩
  · cases hP : isValidPhoneNumber d.phoneNumber <;>
    cases hU : strTruthy d.imageUrl <;>
    cases hD : strTruthy d.imageDataUrl <;>
    cases hS : strStartsWith (d.imageDataUrl.getD "") "data:image/" <;>
      simp [validateSendImageData, hP, hU, hD, hS]
  · cases hP : isValidPhoneNumber d.phoneNumber <;>
    cases hU : strTruthy d.videoUrl <;>
    cases hD : strTruthy d.videoDataUrl <;>
    cases hS : strStartsWith (d.videoDataUrl.getD "") "data:video/" <;>
      simp [validateSendVideoData, hP, hU, hD, hS]
  · cases hP : isValidPhoneNumber d.phoneNumber <;>
    cases hU : strTruthy d.documentUrl <;>
    cases hD : strTruthy d.documentDataUrl <;>
    cases hN : strTruthy d.documentName <;>
      simp [validateSendDocumentData, hP, hU, hD, hN]

/-! ## C8 — pre-authentication envelope handling -/

/-- C8 counterexample.  The claim says every pre-authentication `status`,
`message-result` or `heartbeat` envelope is rejected with a
"not authenticated" error reply; in the code only `status` replies —
`message-result` and `heartbeat` return silently with no reply at all. -/
theorem preauth_silent_counterexample :
    (handleHeartbeat connPre initialManager 0).2 = ([] : List OutMsg) ∧
    (handleMessageResult connPre initialManager resC8).2.1 = ([] : List OutMsg) := by
  exact ⟨rfl, rfl⟩

/-- C8 (amended).  On a connection that has not authenticated: a `status`
envelope is answered with a `NOT_AUTHENTICATED` error reply (when the
socket is open) and touches no registry state; `message-result` and
`heartbeat` envelopes are silently ignored, with no reply, no registry or
heartbeat update and no correlator effect. -/
theorem preauth_handler_spec (c : ConnState) (m : SessionManager)
    (wl rd : Bool) (res : MessageResultData) (now : Nat)
    (hauth : c.authenticated = false) :
    handleStatusMessage c m wl rd =
      (m, if c.wsOpen then [OutMsg.errorEnvelope "NOT_AUTHENTICATED" "Not authenticated"] else []) ∧
    handleMessageResult c m res = (m, [], []) ∧
    handleHeartbeat c m now = (m, []) := by
  refine ⟨?_, ?_, ?_⟩ <;> simp [handleStatusMessage, handleMessageResult, handleHeartbeat,
    sendError, hauth]

/-- C8 witness: the amended theorem applied to the concrete
unauthenticated connection. -/
theorem preauth_handler_spec_witness :
    handleStatusMessage connPre initialManager true true =
      (initialManager, [OutMsg.errorEnvelope "NOT_AUTHENTICATED" "Not authenticated"]) ∧
    handleMessageResult connPre initialManager resC8 = (initialManager, [], []) ∧
    handleHeartbeat connPre initialManager 7 = (initialManager, []) := by
  have h := preauth_handler_spec connPre initialManager true true resC8 7 rfl
  exact ⟨h.1, h.2.1, h.2.2⟩

/-! ## C10 — the façade's session listing -/

/-- C10.  `WhatsAppGateway.getActiveSessions` returns the `getSessionInfo`
snapshot: one entry per registered session of the credential — the list is
not filtered by the `deviceActive` flag (their lengths agree, and the
concrete inactive session `SB` appears) — and the registry state comes back
unchanged: no session data and no round-robin cursor is mutated. -/
theorem facade_getActiveSessions_spec :
    (∀ (m : SessionManager) (k : String),
      facadeGetActiveSessions m k = ((m.getSessions k).map Session.info, m)) ∧
    (∀ (m : SessionManager) (k : String),
      (facadeGetActiveSessions m k).1.length = (m.getSessions k).length) ∧
    (∃ s ∈ mgrC10.getSessions "K", s.deviceActive = false ∧
      Session.info s ∈ (facadeGetActiveSessions mgrC10 "K").1) := by
  refine ⟨fun m k => rfl, fun m k => List.length_map _ _, ?_⟩
  refine ⟨{ sessionId := "SB", apiKey := "K", ws := 1, ip := "u", deviceActive := false
            connectedAt := 0, lastHeartbeat := 0, extensionVersion := none, browser := none
            pendingRequests := [] }, ?_, rfl, ?_⟩
  · decide
  · decide

/-! ## C4 — bucket presence versus session count -/

/-- C4 counterexample.  After the register/unregister sequence consisting of
a single `addSession`, the credential's bucket is present in the session
map while the credential has zero *active* sessions (a fresh session starts
with `deviceActive = false`), so the claimed equivalence between bucket
absence and a zero active-session count fails. -/
theorem bucket_present_zero_active :
    (mapGet mgrC4.sessions "k").isSome = true ∧
    mgrC4.getActiveSessions "k" = [] := by
  exact ⟨by decide, by decide⟩

theorem mem_mapSet {α : Type} {l : List (String × α)} {k : String} {v : α} {p : String × α}
    (h : p ∈ mapSet l k v) : p = (k, v) ∨ p ∈ l := by
  induction l with
  | nil => simpa [mapSet] using h
  | cons q rest ih =>
    cases hq : q.1 == k with
    | true =>
      simp only [mapSet, hq, if_true] at h
      rcases List.mem_cons.mp h with h' | h'
      · exact Or.inl h'
      · exact Or.inr (List.mem_cons_of_mem q h')
    | false =>
      simp only [mapSet, hq, Bool.false_eq_true, if_false] at h
      rcases List.mem_cons.mp h with h' | h'
      · exact Or.inr (h' ▸ List.mem_cons_self q rest)
      · rcases ih h' with h'' | h''
        · exact Or.inl h''
        · exact Or.inr (List.mem_cons_of_mem q h'')

theorem removeSessionList_no_empty_bucket (bs : List (String × List Session)) (sid : String)
    (h : ∀ p ∈ bs, p.2 ≠ []) :
    ∀ p ∈ (removeSessionList bs sid).2.1, p.2 ≠ [] := by
  induction bs with
  | nil => intro p hp; cases hp
  | cons b rest ih =>
    obtain ⟨k, l⟩ := b
    cases hr : removeFromBucket l sid with
    | some sl =>
      obtain ⟨s, l'⟩ := sl
      cases he : l'.isEmpty with
      | true =>
        simp only [removeSessionList, hr, he, if_true]
        intro p hp
        exact h p (List.mem_cons_of_mem _ hp)
      | false =>
        simp only [removeSessionList, hr, he, Bool.false_eq_true, if_false]
        intro p hp
        rcases List.mem_cons.mp hp with h' | h'
        · subst h'
          intro hcon
          have hl' : l' = [] := hcon
          rw [hl'] at he
          simp at he
        · exact h p (List.mem_cons_of_mem _ h')
    | none =>
      simp only [removeSessionList, hr]
      intro p hp
      rcases List.mem_cons.mp hp with h' | h'
      · exact h p (h' ▸ List.mem_cons_self _ _)
      · exact ih (fun q hq => h q (List.mem_cons_of_mem _ hq)) p h'

theorem runRegOps_no_empty_bucket (ops : List RegOp) :
    ∀ (m : SessionManager), (∀ p ∈ m.sessions, p.2 ≠ []) →
    ∀ p ∈ (runRegOps m ops).sessions, p.2 ≠ [] := by
  induction ops with
  | nil => intro m h; simpa [runRegOps] using h
  | cons op rest ih =>
    intro m h
    have hstep : ∀ p ∈ (applyRegOp m op).sessions, p.2 ≠ [] := by
      cases op with
      | add apiKey ws meta freshId now =>
        by_cases hcap :
            m.maxSessionsPerKey ≤ ((mapGet m.sessions apiKey).getD []).length
        · simpa [applyRegOp, SessionManager.addSession, hcap] using h
        · simp only [applyRegOp, SessionManager.addSession, hcap, if_false]
          intro p hp
          rcases mem_mapSet hp with h' | h'
          · rw [h']; simp
          · exact h p h'
      | remove sid =>
        simpa [applyRegOp, SessionManager.removeSession] using
          removeSessionList_no_empty_bucket m.sessions sid h
    simpa [runRegOps] using ih (applyRegOp m op) hstep

theorem mapGet_eq_some_mem {α : Type} {l : List (String × α)} {k : String} {v : α}
    (h : mapGet l k = some v) : ∃ p ∈ l, p.2 = v := by
  rcases Option.map_eq_some'.mp h with ⟨p, hp, hpv⟩
  exact ⟨p, List.mem_of_find?_eq_some hp, hpv⟩

/-- C4 (amended).  For every sequence of `addSession`/`removeSession`
operations from the empty registry and every credential: the credential's
bucket is absent from the session map exactly when the credential has zero
*registered* sessions (a freshly added session is initially inactive, so
the equivalence holds for the registered-session count, not for the count
of sessions with `deviceActive = true`). -/
theorem bucket_absent_iff_sessions_empty (ops : List RegOp) (k : String) :
    mapGet (runRegOps initialManager ops).sessions k = none ↔
    (runRegOps initialManager ops).getSessions k = [] := by
  have hinv := runRegOps_no_empty_bucket ops initialManager
    (by intro p hp; cases hp)
  constructor
  · intro h
    simp [SessionManager.getSessions, h]
  · intro h
    cases hg : mapGet (runRegOps initialManager ops).sessions k with
    | none => rfl
    | some l =>
      obtain ⟨p, hp, hpv⟩ := mapGet_eq_some_mem hg
      have hne : l ≠ [] := hpv ▸ hinv p hp
      have hl : (runRegOps initialManager ops).getSessions k = l := by
        simp [SessionManager.getSessions, hg]
      exact absurd (hl.symm.trans h) hne

theorem getSessionForSending_single (m : SessionManager) (k : String) (rand : Nat) (s : Session)
    (hA : m.getActiveSessions k = [s]) : m.getSessionForSending k rand = (some s, m) := by
  simp [SessionManager.getSessionForSending, hA]

theorem getSessionForSending_roundRobin (m : SessionManager) (k : String) (rand : Nat)
    (a b : Session) (t : List Session)
    (hstrat : m.deviceSelectionStrategy = .roundRobin)
    (hA : m.getActiveSessions k = a :: b :: t) :
    m.getSessionForSending k rand =
      ((a :: b :: t)[((mapGet m.roundRobinCounters k).getD 0 % (a :: b :: t).length)]?,
       { m with roundRobinCounters :=
           mapSet m.roundRobinCounters k ((mapGet m.roundRobinCounters k).getD 0 + 1) }) := by
  simp [SessionManager.getSessionForSending, hA, hstrat]

theorem selectN_formula (count : Nat) : ∀ (m : SessionManager) (k : String),
    m.deviceSelectionStrategy = .roundRobin →
    m.getActiveSessions k ≠ [] →
    (selectN m k count).1 = (List.range count).map
      (fun i => (m.getActiveSessions k)[(((mapGet m.roundRobinCounters k).getD 0 + i) %
        (m.getActiveSessions k).length)]?) := by
  induction count with
  | zero => intro m k _ _; simp [selectN]
  | succ j ih =>
    intro m k hstrat hne
    rcases hA : m.getActiveSessions k with _ | ⟨a, rest⟩
    · exact absurd hA hne
    rcases rest with _ | ⟨b, t⟩
    · have h1 := getSessionForSending_single m k 0 a hA
      have ih' := ih m k hstrat hne
      simp only [selectN, h1]
      rw [ih', hA, List.range_succ_eq_map, List.map_cons, List.map_map]
      simp [Nat.mod_one, Function.comp_def]
    · have h1 := getSessionForSending_roundRobin m k 0 a b t hstrat hA
      have hstrat1 : ({ m with roundRobinCounters := (mapSet m.roundRobinCounters k
          ((mapGet m.roundRobinCounters k).getD 0 + 1)) }).deviceSelectionStrategy =
          .roundRobin := hstrat
      have hA1 : ({ m with roundRobinCounters := (mapSet m.roundRobinCounters k
          ((mapGet m.roundRobinCounters k).getD 0 + 1)) }).getActiveSessions k =
          a :: b :: t := hA
      have hne1 : ({ m with roundRobinCounters := (mapSet m.roundRobinCounters k
          ((mapGet m.roundRobinCounters k).getD 0 + 1)) }).getActiveSessions k ≠ [] := by
        rw [hA1]; simp
      have ih' := ih _ k hstrat1 hne1
      have hc1 : (mapGet ({ m with roundRobinCounters := (mapSet m.roundRobinCounters k
          ((mapGet m.roundRobinCounters k).getD 0 + 1)) }).roundRobinCounters k).getD 0 =
          (mapGet m.roundRobinCounters k).getD 0 + 1 := by
        show (mapGet (mapSet m.roundRobinCounters k _) k).getD 0 = _
        rw [mapGet_mapSet_self]
        rfl
      simp only [selectN, h1]
      rw [ih', hc1, hA1, List.range_succ_eq_map, List.map_cons, List.map_map]
      congr 1
      apply List.map_congr_left
      intro i _
      simp only [Function.comp_apply]
      have harith : (mapGet m.roundRobinCounters k).getD 0 + 1 + i =
          (mapGet m.roundRobinCounters k).getD 0 + (i + 1) := by omega
      rw [harith]

/-- C5.  Round-robin selection with no churn: starting from cursor value
`c` over the credential's (non-empty) active list `A`, `A.length`
consecutive `getSessionForSending` calls return exactly the rotation of `A`
by `c % A.length` — each active session exactly once, in cyclic insertion
order (a permutation of the active list); with a fresh cursor the window is
`A` itself in insertion order; the next window repeats the same cycle; and
in the concrete 3-session scenario, 4 consecutive selections return
`[S1, S2, S3, S1]`. -/
theorem roundRobin_cycle (m : SessionManager) (k : String) (c : Nat)
    (hstrat : m.deviceSelectionStrategy = .roundRobin)
    (hne : m.getActiveSessions k ≠ [])
    (hc : (mapGet m.roundRobinCounters k).getD 0 = c) :
    (selectN m k (m.getActiveSessions k).length).1 =
      ((m.getActiveSessions k).rotate (c % (m.getActiveSessions k).length)).map some ∧
    (selectN m k (m.getActiveSessions k).length).1.Perm
      ((m.getActiveSessions k).map some) ∧
    (mapGet m.roundRobinCounters k = none →
      (selectN m k (m.getActiveSessions k).length).1 =
        (m.getActiveSessions k).map some) ∧
    (selectN m k ((m.getActiveSessions k).length + (m.getActiveSessions k).length)).1 =
      ((m.getActiveSessions k).rotate (c % (m.getActiveSessions k).length)).map some ++
      ((m.getActiveSessions k).rotate (c % (m.getActiveSessions k).length)).map some ∧
    (selectN mgrC5 "K" 4).1 =
      [some (sessRR "S1"), some (sessRR "S2"), some (sessRR "S3"), some (sessRR "S1")] := by
  have hlen : 0 < (m.getActiveSessions k).length := List.length_pos.mpr hne
  have hW : ∀ (cnt : Nat), (List.range cnt).map
      (fun i => (m.getActiveSessions k)[((c + i) % (m.getActiveSessions k).length)]?) =
      (List.range cnt).map
      (fun i => ((m.getActiveSessions k).rotate
        (c % (m.getActiveSessions k).length))[i % (m.getActiveSessions k).length]?) := by
    intro cnt
    apply List.map_congr_left
    intro i _
    rw [List.getElem?_rotate (Nat.mod_lt i hlen)]
    congr 1
    rw [Nat.add_comm c i, Nat.add_mod]
  have hrot : ∀ (i : Nat), i < (m.getActiveSessions k).length →
      ((m.getActiveSessions k).rotate
        (c % (m.getActiveSessions k).length))[i % (m.getActiveSessions k).length]? =
      ((m.getActiveSessions k).rotate (c % (m.getActiveSessions k).length))[i]? := by
    intro i hi
    rw [Nat.mod_eq_of_lt hi]
  have hwin : (selectN m k (m.getActiveSessions k).length).1 =
      ((m.getActiveSessions k).rotate (c % (m.getActiveSessions k).length)).map some := by
    have hform := selectN_formula (m.getActiveSessions k).length m k hstrat hne
    rw [hc] at hform
    rw [hform, hW]
    apply List.ext_getElem?
    intro i
    by_cases hi : i < (m.getActiveSessions k).length
    · rw [List.getElem?_map, List.getElem?_map, List.getElem?_range hi, Option.map_some',
        hrot i hi]
      have hlt : i < ((m.getActiveSessions k).rotate
          (c % (m.getActiveSessions k).length)).length := by
        rw [List.length_rotate]; exact hi
      rw [List.getElem?_eq_getElem hlt, Option.map_some']
    · have hi' : (m.getActiveSessions k).length ≤ i := Nat.le_of_not_lt hi
      rw [List.getElem?_eq_none, List.getElem?_eq_none]
      · rw [List.length_map, List.length_rotate]; exact hi'
      · rw [List.length_map, List.length_range]; exact hi'
  refine ⟨hwin, ?_, ?_, ?_, ?_⟩
  · rw [hwin]
    exact (List.rotate_perm _ _).map some
  · intro h0
    have hc0 : c = 0 := by
      rw [h0] at hc
      exact hc.symm
    rw [hwin, hc0, Nat.zero_mod, List.rotate_zero]
  · have hform2 := selectN_formula
      ((m.getActiveSessions k).length + (m.getActiveSessions k).length) m k hstrat hne
    rw [hc] at hform2
    rw [hform2, List.range_add, List.map_append, List.map_map]
    have hsecond : (List.range (m.getActiveSessions k).length).map
        ((fun i => (m.getActiveSessions k)[((c + i) %
          (m.getActiveSessions k).length)]?) ∘ ((m.getActiveSessions k).length + ·)) =
        (List.range (m.getActiveSessions k).length).map
        (fun i => (m.getActiveSessions k)[((c + i) %
          (m.getActiveSessions k).length)]?) := by
      apply List.map_congr_left
      intro i _
      simp only [Function.comp_apply]
      have : c + ((m.getActiveSessions k).length + i) =
          (c + i) + (m.getActiveSessions k).length := by omega
      rw [this, Nat.add_mod_right]
    rw [hsecond]
    have hWrot : (List.range (m.getActiveSessions k).length).map
        (fun i => (m.getActiveSessions k)[((c + i) %
          (m.getActiveSessions k).length)]?) =
        ((m.getActiveSessions k).rotate (c % (m.getActiveSessions k).length)).map some := by
      have hform := selectN_formula (m.getActiveSessions k).length m k hstrat hne
      rw [hc] at hform
      rw [← hform]
      exact hwin
    rw [hWrot]
  · rfl

/-- C5 witness: the theorem applied to the 3-session registry `mgrC5` with
its fresh cursor (`c = 0`). -/
theorem roundRobin_cycle_witness :
    (selectN mgrC5 "K" (mgrC5.getActiveSessions "K").length).1 =
      (mgrC5.getActiveSessions "K").map some ∧
    (selectN mgrC5 "K" 4).1 =
      [some (sessRR "S1"), some (sessRR "S2"), some (sessRR "S3"), some (sessRR "S1")] := by
  have h := roundRobin_cycle mgrC5 "K" 0 rfl (by decide) rfl
  exact ⟨h.2.2.1 rfl, h.2.2.2.2⟩


/-! ## C6 — session removal -/

theorem removeFromBucket_eq_none_iff (l : List Session) (sid : String) :
    removeFromBucket l sid = none ↔ ∀ t ∈ l, t.sessionId ≠ sid := by
  induction l with
  | nil => simp [removeFromBucket]
  | cons s rest ih =>
    cases h : s.sessionId == sid with
    | true =>
      have heq : s.sessionId = sid := by simpa using h
      simp only [removeFromBucket, h, if_true]
      constructor
      · intro hcon
        exact absurd hcon (by simp)
      · intro hall
        exact absurd heq (hall s (List.mem_cons_self s rest))
    | false =>
      have hne : s.sessionId ≠ sid := by simpa using h
      simp only [removeFromBucket, h, Bool.false_eq_true, if_false]
      constructor
      · intro hn
        have hrest : removeFromBucket rest sid = none := by
          cases hr : removeFromBucket rest sid with
          | none => rfl
          | some q =>
            rw [hr] at hn
            simp at hn
        intro t ht
        rcases List.mem_cons.mp ht with h' | h'
        · exact h' ▸ hne
        · exact (ih.mp hrest) t h'
      · intro hall
        rw [ih.mpr (fun t ht => hall t (List.mem_cons_of_mem _ ht))]
        rfl

theorem removeFromBucket_first (b₁ : List Session) (s : Session) (b₂ : List Session)
    (sid : String) (hs : s.sessionId = sid) (hb₁ : ∀ t ∈ b₁, t.sessionId ≠ sid) :
    removeFromBucket (b₁ ++ s :: b₂) sid = some (s, b₁ ++ b₂) := by
  induction b₁ with
  | nil => simp [removeFromBucket, hs]
  | cons t rest ih =>
    have hne : (t.sessionId == sid) = false := by
      simpa using hb₁ t (List.mem_cons_self t rest)
    simp [removeFromBucket, hne,
      ih (fun u hu => hb₁ u (List.mem_cons_of_mem t hu))]

theorem getSessionList_eq_none_iff (bs : List (String × List Session)) (sid : String) :
    getSessionList bs sid = none ↔ ∀ p ∈ bs, ∀ t ∈ p.2, t.sessionId ≠ sid := by
  induction bs with
  | nil => simp [getSessionList]
  | cons p rest ih =>
    obtain ⟨k, l⟩ := p
    cases hb : bucketFind l sid with
    | some s =>
      simp only [getSessionList, hb]
      constructor
      · intro hcon
        exact absurd hcon (by simp)
      · intro hall
        have hmem := List.mem_of_find?_eq_some hb
        have hbeq := List.find?_some hb
        exact absurd (by simpa using hbeq)
          (hall (k, l) (List.mem_cons_self _ _) s hmem)
    | none =>
      have hlb : ∀ t ∈ l, t.sessionId ≠ sid := by
        intro t ht
        have := List.find?_eq_none.mp hb t ht
        simpa using this
      simp only [getSessionList, hb]
      rw [ih]
      constructor
      · intro hall
        intro p hp
        rcases List.mem_cons.mp hp with h' | h'
        · intro t ht
          exact (h' ▸ hlb : ∀ t ∈ p.2, t.sessionId ≠ sid) t ht
        · exact hall p h'
      · intro hall p hp
        exact hall p (List.mem_cons_of_mem _ hp)

theorem removeSessionList_not_found (bs : List (String × List Session)) (sid : String)
    (h : ∀ p ∈ bs, ∀ t ∈ p.2, t.sessionId ≠ sid) :
    removeSessionList bs sid = (false, bs, [], none) := by
  induction bs with
  | nil => rfl
  | cons p rest ih =>
    obtain ⟨k, l⟩ := p
    have hnone : removeFromBucket l sid = none :=
      (removeFromBucket_eq_none_iff l sid).mpr (h (k, l) (List.mem_cons_self _ _))
    have ih' := ih (fun q hq => h q (List.mem_cons_of_mem _ hq))
    simp [removeSessionList, hnone, ih']

theorem removeSessionList_found (pre : List (String × List Session)) (k : String)
    (b₁ : List Session) (s : Session) (b₂ : List Session)
    (post : List (String × List Session)) (sid : String)
    (hs : s.sessionId = sid)
    (hpre : ∀ p ∈ pre, ∀ t ∈ p.2, t.sessionId ≠ sid)
    (hb₁ : ∀ t ∈ b₁, t.sessionId ≠ sid) :
    removeSessionList (pre ++ (k, b₁ ++ s :: b₂) :: post) sid =
      (true,
       pre ++ (if (b₁ ++ b₂).isEmpty then post else (k, b₁ ++ b₂) :: post),
       pendingRejectEffects s,
       if (b₁ ++ b₂).isEmpty then some k else none) := by
  induction pre with
  | nil =>
    cases he : (b₁ ++ b₂).isEmpty <;>
      simp [removeSessionList, removeFromBucket_first b₁ s b₂ sid hs hb₁, he]
  | cons p rest ih =>
    obtain ⟨k', l'⟩ := p
    have hnone : removeFromBucket l' sid = none :=
      (removeFromBucket_eq_none_iff l' sid).mpr (hpre (k', l') (List.mem_cons_self _ _))
    have ih' := ih (fun q hq => hpre q (List.mem_cons_of_mem _ hq))
    simp [removeSessionList, hnone, ih']

/-- C6.  `removeSession`: for a registered session (located at an explicit
position — first bucket holding the id, first matching entry of that
bucket), the call returns `true`, emits for every pending request of the
session, in table order, a timer disarm followed by a `CONNECTION_LOST`
rejection of its completion handle, removes the session from its
credential's bucket, and deletes the bucket together with its round-robin
cursor exactly when the bucket became empty; for a session id not present
anywhere, it returns `false` and changes nothing. -/
theorem removeSession_spec (m : SessionManager) (sid k : String)
    (pre post : List (String × List Session)) (b₁ b₂ : List Session) (s : Session)
    (hm : m.sessions = pre ++ (k, b₁ ++ s :: b₂) :: post)
    (hs : s.sessionId = sid)
    (hpre : ∀ p ∈ pre, ∀ t ∈ p.2, t.sessionId ≠ sid)
    (hb₁ : ∀ t ∈ b₁, t.sessionId ≠ sid) :
    m.removeSession sid =
      (true,
       { m with
         sessions := pre ++ (if (b₁ ++ b₂).isEmpty then post else (k, b₁ ++ b₂) :: post)
         roundRobinCounters :=
           if (b₁ ++ b₂).isEmpty then mapDelete m.roundRobinCounters k
           else m.roundRobinCounters },
       pendingRejectEffects s) ∧
    (∀ (m₂ : SessionManager) (sid₂ : String), m₂.getSession sid₂ = none →
      m₂.removeSession sid₂ = (false, m₂, [])) := by
  constructor
  · have hlist := removeSessionList_found pre k b₁ s b₂ post sid hs hpre hb₁
    cases he : (b₁ ++ b₂).isEmpty <;>
      · rw [he] at hlist
        simp only [SessionManager.removeSession, hm, hlist, he]
        simp
  · intro m₂ sid₂ hnone
    have hforall := (getSessionList_eq_none_iff m₂.sessions sid₂).mp hnone
    have hlist := removeSessionList_not_found m₂.sessions sid₂ hforall
    simp only [SessionManager.removeSession, hlist]

/-- C6 witness: removing the only session of `mgrC1` empties and deletes
the `"k1"` bucket, and removing an unknown id from the empty registry is a
no-op returning `false`. -/
theorem removeSession_spec_witness :
    mgrC1.removeSession "s1" = (true, initialManager, pendingRejectEffects sessC1) ∧
    initialManager.removeSession "zz" = (false, initialManager, []) := by
  have h := removeSession_spec mgrC1 "s1" "k1" [] [] [] [] sessC1 rfl rfl
    (by intro p hp; cases hp) (by intro t ht; cases ht)
  exact ⟨h.1, h.2 initialManager "zz" rfl⟩

/-! ## C7 — the liveness sweep -/

theorem getSessionList_eq_none_iff_ids (bs : List (String × List Session)) (sid : String) :
    getSessionList bs sid = none ↔ sid ∉ sessionsIdList bs := by
  rw [getSessionList_eq_none_iff]
  simp only [sessionsIdList, List.mem_flatMap, List.mem_map, not_exists, not_and]

theorem removeFromBucket_decomp (l : List Session) (sid : String) (s : Session)
    (l' : List Session) (h : removeFromBucket l sid = some (s, l')) :
    ∃ l₁ l₂, l = l₁ ++ s :: l₂ ∧ l' = l₁ ++ l₂ ∧ s.sessionId = sid ∧
      ∀ t ∈ l₁, t.sessionId ≠ sid := by
  induction l generalizing l' with
  | nil => cases h
  | cons t rest ih =>
    cases ht : t.sessionId == sid with
    | true =>
      simp only [removeFromBucket, ht, if_true, Option.some.injEq, Prod.mk.injEq] at h
      obtain ⟨rfl, rfl⟩ := h
      exact ⟨[], rest, rfl, rfl, by simpa using ht, by intro u hu; cases hu⟩
    | false =>
      simp only [removeFromBucket, ht, Bool.false_eq_true, if_false,
        Option.map_eq_some'] at h
      obtain ⟨q, hq, hpair⟩ := h
      obtain ⟨s', q₂⟩ := q
      simp only [Prod.mk.injEq] at hpair
      obtain ⟨hq1, hq2⟩ := hpair
      subst hq1
      obtain ⟨l₁, l₂, hl, hl', hsid, hl₁⟩ := ih q₂ hq
      refine ⟨t :: l₁, l₂, by rw [hl]; rfl, ?_, hsid, ?_⟩
      · rw [← hq2, hl']
        simp
      · intro u hu
        rcases List.mem_cons.mp hu with h' | h'
        · exact h' ▸ (by simpa using ht)
        · exact hl₁ u h'

theorem sessionsIdList_removeSessionList (bs : List (String × List Session)) (sid : String) :
    sessionsIdList (removeSessionList bs sid).2.1 = (sessionsIdList bs).erase sid := by
  induction bs with
  | nil => rfl
  | cons b rest ih =>
    obtain ⟨k, l⟩ := b
    cases hr : removeFromBucket l sid with
    | some q =>
      obtain ⟨s, l'⟩ := q
      obtain ⟨l₁, l₂, hl, hl', hsid, hl₁⟩ := removeFromBucket_decomp l sid s l' hr
      have hnotin : sid ∉ l₁.map Session.sessionId := by
        intro hcon
        obtain ⟨t, ht, hid⟩ := List.mem_map.mp hcon
        exact hl₁ t ht hid
      cases he : l'.isEmpty with
      | true =>
        have hl'nil : l' = [] := List.isEmpty_iff.mp he
        rw [hl'nil] at hl'
        obtain ⟨rfl, rfl⟩ := List.append_eq_nil.mp hl'.symm
        simp only [removeSessionList, hr, he, if_true]
        rw [hl]
        simp only [sessionsIdList, List.flatMap_cons, List.nil_append, List.map_cons,
          List.map_nil, List.cons_append, List.nil_append]
        rw [hsid, List.erase_cons_head]
      | false =>
        simp only [removeSessionList, hr, he, Bool.false_eq_true, if_false]
        rw [hl, hl']
        simp only [sessionsIdList, List.flatMap_cons, List.map_append, List.map_cons]
        have hmem2 : sid ∈ List.map Session.sessionId l₁ ++
            s.sessionId :: List.map Session.sessionId l₂ := by
          apply List.mem_append.mpr
          right
          rw [hsid]
          exact List.mem_cons_self _ _
        rw [List.erase_append_left _ hmem2, List.erase_append_right _ hnotin, hsid,
          List.erase_cons_head]
    | none =>
      have hnl : ∀ t ∈ l, t.sessionId ≠ sid := (removeFromBucket_eq_none_iff l sid).mp hr
      have hnotin : sid ∉ l.map Session.sessionId := by
        intro hcon
        obtain ⟨t, ht, hid⟩ := List.mem_map.mp hcon
        exact hnl t ht hid
      simp only [removeSessionList, hr]
      simp only [sessionsIdList, List.flatMap_cons] at ih ⊢
      rw [ih, List.erase_append_right _ hnotin]

theorem bucketFind_middle (l₁ : List Session) (s : Session) (l₂ : List Session)
    (sid' : String) (h : s.sessionId ≠ sid') :
    bucketFind (l₁ ++ s :: l₂) sid' = bucketFind (l₁ ++ l₂) sid' := by
  induction l₁ with
  | nil =>
    have hb : (s.sessionId == sid') = false := by simpa using h
    simp [bucketFind, List.find?_cons, hb]
  | cons t rest ih =>
    cases ht : t.sessionId == sid' with
    | true => simp [bucketFind, List.find?_cons, ht]
    | false =>
      simp only [bucketFind, List.cons_append, List.find?_cons, ht] at ih ⊢
      exact ih

theorem getSessionList_removeSessionList_ne (bs : List (String × List Session))
    (sid sid' : String) (hne : sid' ≠ sid) :
    getSessionList (removeSessionList bs sid).2.1 sid' = getSessionList bs sid' := by
  induction bs with
  | nil => rfl
  | cons b rest ih =>
    obtain ⟨k, l⟩ := b
    cases hr : removeFromBucket l sid with
    | some q =>
      obtain ⟨s, l'⟩ := q
      obtain ⟨l₁, l₂, hl, hl', hsid, hl₁⟩ := removeFromBucket_decomp l sid s l' hr
      have hsne : s.sessionId ≠ sid' := by
        rw [hsid]
        exact fun e => hne e.symm
      cases he : l'.isEmpty with
      | true =>
        have hl'nil : l' = [] := List.isEmpty_iff.mp he
        rw [hl'nil] at hl'
        obtain ⟨rfl, rfl⟩ := List.append_eq_nil.mp hl'.symm
        simp only [removeSessionList, hr, he, if_true]
        rw [hl]
        have hb : bucketFind ([] ++ s :: []) sid' = none := by
          have := bucketFind_middle [] s [] sid' hsne
          simpa [bucketFind] using this
        simp only [getSessionList, List.nil_append] at hb ⊢
        rw [hb]
      | false =>
        simp only [removeSessionList, hr, he, Bool.false_eq_true, if_false]
        rw [hl, hl']
        simp only [getSessionList]
        rw [bucketFind_middle l₁ s l₂ sid' hsne]
    | none =>
      simp only [removeSessionList, hr, getSessionList]
      cases hb : bucketFind l sid' with
      | some t => rfl
      | none => exact ih

theorem bucketFind_of_mem_nodup (l : List Session) (s : Session) (hmem : s ∈ l)
    (hnd : (l.map Session.sessionId).Nodup) : bucketFind l s.sessionId = some s := by
  induction l with
  | nil => cases hmem
  | cons t rest ih =>
    simp only [List.map_cons, List.nodup_cons] at hnd
    cases ht : t.sessionId == s.sessionId with
    | true =>
      have hteq : t.sessionId = s.sessionId := by simpa using ht
      rcases List.mem_cons.mp hmem with h' | h'
      · simp [bucketFind, List.find?_cons, ht, h']
      · exact absurd (hteq ▸ List.mem_map_of_mem Session.sessionId h') hnd.1
    | false =>
      have hne : t ≠ s := by
        intro e
        rw [e] at ht
        simp at ht
      have h' : s ∈ rest := by
        rcases List.mem_cons.mp hmem with h'' | h''
        · exact absurd h''.symm hne
        · exact h''
      simp only [bucketFind, List.find?_cons, ht]
      exact ih h' hnd.2

theorem getSessionList_of_mem_nodup (bs : List (String × List Session)) (s : Session)
    (hmem : s ∈ bs.flatMap (fun p => p.2)) (hnd : (sessionsIdList bs).Nodup) :
    getSessionList bs s.sessionId = some s := by
  induction bs with
  | nil => cases hmem
  | cons b rest ih =>
    obtain ⟨k, l⟩ := b
    simp only [sessionsIdList, List.flatMap_cons] at hnd
    obtain ⟨ndl, ndr, hdisj⟩ := List.nodup_append.mp hnd
    simp only [List.flatMap_cons, List.mem_append] at hmem
    rcases hmem with h' | h'
    · simp only [getSessionList, bucketFind_of_mem_nodup l s h' ndl]
    · have hid : s.sessionId ∈ sessionsIdList rest := by
        obtain ⟨p, hp, hsp⟩ := List.mem_flatMap.mp h'
        exact List.mem_flatMap.mpr ⟨p, hp, List.mem_map_of_mem Session.sessionId hsp⟩
      have hb : bucketFind l s.sessionId = none := by
        rw [bucketFind, List.find?_eq_none]
        intro t ht hbeq
        have hteq : t.sessionId = s.sessionId := by simpa using hbeq
        exact hdisj (List.mem_map_of_mem Session.sessionId ht) (hteq ▸ hid)
      simp only [getSessionList, hb]
      exact ih h' ndr

theorem removeFromBucket_fst (l : List Session) (sid : String) :
    (removeFromBucket l sid).map Prod.fst = bucketFind l sid := by
  induction l with
  | nil => rfl
  | cons t rest ih =>
    cases ht : t.sessionId == sid with
    | true => simp [removeFromBucket, bucketFind, List.find?_cons, ht]
    | false =>
      simp only [removeFromBucket, ht, Bool.false_eq_true, if_false, bucketFind,
        List.find?_cons]
      rw [Option.map_map]
      simp only [bucketFind] at ih
      rw [← ih]
      rfl

theorem removeSessionList_found_effects (bs : List (String × List Session)) (sid : String)
    (s : Session) (h : getSessionList bs sid = some s) :
    (removeSessionList bs sid).1 = true ∧
    (removeSessionList bs sid).2.2.1 = pendingRejectEffects s := by
  induction bs with
  | nil => cases h
  | cons b rest ih =>
    obtain ⟨k, l⟩ := b
    cases hb : bucketFind l sid with
    | some t =>
      have ht : t = s := by
        simp only [getSessionList, hb, Option.some.injEq] at h
        exact h
      cases hr : removeFromBucket l sid with
      | none =>
        rw [← removeFromBucket_fst l sid, hr] at hb
        cases hb
      | some q =>
        obtain ⟨s', l'⟩ := q
        have hs' : s' = s := by
          have hfst := removeFromBucket_fst l sid
          rw [hr, hb] at hfst
          have hts : s' = t := by simpa using hfst
          exact hts.trans ht
        subst hs'
        cases he : l'.isEmpty with
        | true => refine ⟨?_, ?_⟩ <;> simp [removeSessionList, hr, he]
        | false => refine ⟨?_, ?_⟩ <;> simp [removeSessionList, hr, he]
    | none =>
      have hr : removeFromBucket l sid = none := by
        have := removeFromBucket_fst l sid
        rw [hb, Option.map_eq_none'] at this
        exact this
      simp only [getSessionList, hb] at h
      have ih' := ih h
      simp only [removeSessionList, hr]
      exact ih'

theorem evictStale_effects_mono (ids : List String) :
    ∀ (m : SessionManager) (effs : List Effect),
    ∃ tail, (evictStale (m, effs) ids).2 = effs ++ tail := by
  induction ids with
  | nil => intro m effs; exact ⟨[], by simp [evictStale]⟩
  | cons sid rest ih =>
    intro m effs
    simp only [evictStale]
    obtain ⟨tail, htail⟩ := ih (m.removeSession sid).2.1
      (effs ++ (match m.getSession sid with
        | some s => [Effect.hookStale s]
        | none => []) ++ (m.removeSession sid).2.2)
    refine ⟨(match m.getSession sid with
        | some s => [Effect.hookStale s]
        | none => []) ++ (m.removeSession sid).2.2 ++ tail, ?_⟩
    rw [htail]
    simp [List.append_assoc]

theorem evictStale_preserves_absent (ids : List String) :
    ∀ (m : SessionManager) (effs : List Effect) (sid : String),
    getSessionList m.sessions sid = none →
    getSessionList (evictStale (m, effs) ids).1.sessions sid = none := by
  induction ids with
  | nil => intro m effs sid h; simpa [evictStale] using h
  | cons sid₀ rest ih =>
    intro m effs sid h
    simp only [evictStale]
    apply ih
    show getSessionList (removeSessionList m.sessions sid₀).2.1 sid = none
    rw [getSessionList_eq_none_iff_ids] at h ⊢
    rw [sessionsIdList_removeSessionList]
    intro hcon
    exact h (List.mem_of_mem_erase hcon)

theorem evictStale_spec (ids : List String) :
    ∀ (m : SessionManager) (effs : List Effect) (s : Session),
    (sessionsIdList m.sessions).Nodup →
    s.sessionId ∈ ids →
    m.getSession s.sessionId = some s →
    getSessionList (evictStale (m, effs) ids).1.sessions s.sessionId = none ∧
    Effect.hookStale s ∈ (evictStale (m, effs) ids).2 ∧
    pendingRejectEffects s ⊆ (evictStale (m, effs) ids).2 := by
  induction ids with
  | nil => intro m effs s _ hmem _; cases hmem
  | cons sid₀ rest ih =>
    intro m effs s hnd hmem hget
    by_cases hsid : sid₀ = s.sessionId
    · subst hsid
      have hrem := removeSessionList_found_effects m.sessions s.sessionId s hget
      have heffs : (m.removeSession s.sessionId).2.2 = pendingRejectEffects s := hrem.2
      have habs : getSessionList (m.removeSession s.sessionId).2.1.sessions s.sessionId = none := by
        show getSessionList (removeSessionList m.sessions s.sessionId).2.1 s.sessionId = none
        rw [getSessionList_eq_none_iff_ids, sessionsIdList_removeSessionList]
        intro hcon
        exact ((hnd.mem_erase_iff).mp hcon).1 rfl
      simp only [evictStale, hget]
      obtain ⟨tail, htail⟩ := evictStale_effects_mono rest (m.removeSession s.sessionId).2.1
        (effs ++ [Effect.hookStale s] ++ (m.removeSession s.sessionId).2.2)
      refine ⟨?_, ?_, ?_⟩
      · exact evictStale_preserves_absent rest _ _ s.sessionId habs
      · rw [htail]
        simp
      · intro e he
        rw [htail, heffs]
        simp only [List.mem_append]
        exact Or.inl (Or.inr he)
    · have hmem' : s.sessionId ∈ rest := by
        rcases List.mem_cons.mp hmem with h' | h'
        · exact absurd h'.symm hsid
        · exact h'
      have hget' : (m.removeSession sid₀).2.1.getSession s.sessionId = some s := by
        show getSessionList (removeSessionList m.sessions sid₀).2.1 s.sessionId = some s
        rw [getSessionList_removeSessionList_ne m.sessions sid₀ s.sessionId
          (fun e => hsid e.symm)]
        exact hget
      have hnd' : (sessionsIdList (m.removeSession sid₀).2.1.sessions).Nodup := by
        show (sessionsIdList (removeSessionList m.sessions sid₀).2.1).Nodup
        rw [sessionsIdList_removeSessionList]
        exact (List.erase_sublist sid₀ _).nodup hnd
      simp only [evictStale]
      exact ih (m.removeSession sid₀).2.1 _ s hnd' hmem' hget'

theorem getSessionInfo_mem_ids (m : SessionManager) (k : String) (t : SessionInfo)
    (h : t ∈ m.getSessionInfo k) : t.sessionId ∈ sessionsIdList m.sessions := by
  obtain ⟨u, hu, rfl⟩ := List.mem_map.mp h
  have hu' : u ∈ m.sessions.flatMap (fun p => p.2) := by
    unfold SessionManager.getSessions at hu
    cases hg : mapGet m.sessions k with
    | none =>
      rw [hg] at hu
      cases hu
    | some l =>
      rw [hg] at hu
      obtain ⟨p, hp, hpv⟩ := mapGet_eq_some_mem hg
      exact List.mem_flatMap.mpr ⟨p, hp, hpv ▸ hu⟩
  obtain ⟨p, hp, hsp⟩ := List.mem_flatMap.mp hu'
  exact List.mem_flatMap.mpr ⟨p, hp, List.mem_map_of_mem Session.sessionId hsp⟩

/-- C7.  On a Liveness Sweeper tick over a registry with distinct session
ids, every session whose elapsed time since its last heartbeat exceeds the
stale threshold is evicted: the tick (whose stale list is snapshotted from
the pre-tick registry before any mutation) invokes the caller-supplied hook
with the stale session, fails each of its pending requests with a timer
disarm and a `CONNECTION_LOST` rejection, and afterwards the session is
gone — `getSession` misses and no credential's `getSessionInfo` listing
contains its id. -/
theorem heartbeatTick_evicts (m : SessionManager) (now : Nat) (s : Session)
    (hnd : (sessionsIdList m.sessions).Nodup)
    (hmem : s ∈ m.sessions.flatMap (fun p => p.2))
    (hstale : m.heartbeatTimeout < now - s.lastHeartbeat) :
    (m.heartbeatTick now).1.getSession s.sessionId = none ∧
    Effect.hookStale s ∈ (m.heartbeatTick now).2 ∧
    pendingRejectEffects s ⊆ (m.heartbeatTick now).2 ∧
    ∀ (k : String) (t : SessionInfo), t ∈ (m.heartbeatTick now).1.getSessionInfo k →
      t.sessionId ≠ s.sessionId := by
  have hstaleMem : s.sessionId ∈ staleSessionIds m now := by
    obtain ⟨p, hp, hsp⟩ := List.mem_flatMap.mp hmem
    refine List.mem_flatMap.mpr ⟨p, hp, List.mem_filterMap.mpr ⟨s, hsp, ?_⟩⟩
    rw [if_pos hstale]
  have hget : m.getSession s.sessionId = some s :=
    getSessionList_of_mem_nodup m.sessions s hmem hnd
  have h := evictStale_spec (staleSessionIds m now) m [] s hnd hstaleMem hget
  refine ⟨h.1, h.2.1, h.2.2, ?_⟩
  intro k t ht hid
  have hmem' := getSessionInfo_mem_ids (m.heartbeatTick now).1 k t ht
  rw [hid] at hmem'
  have habs := h.1
  rw [getSessionList_eq_none_iff_ids] at habs
  exact habs hmem'

/-- C7 witness: on the concrete registry `mgrC7` at time 70000 (default
60s threshold), the stale session `S1` is evicted with its hook call and
`CONNECTION_LOST` rejection, and only `S2` remains listed. -/
theorem heartbeatTick_evicts_witness :
    (mgrC7.heartbeatTick 70000).1.getSession "S1" = none ∧
    Effect.hookStale sStaleC7 ∈ (mgrC7.heartbeatTick 70000).2 ∧
    Effect.clearTimeout 5 ∈ (mgrC7.heartbeatTick 70000).2 ∧
    Effect.rejectHandle 0 ErrCode.CONNECTION_LOST ∈ (mgrC7.heartbeatTick 70000).2 := by
  have h := heartbeatTick_evicts mgrC7 70000 sStaleC7 (by decide) (by decide) (by decide)
  refine ⟨h.1, h.2.1, ?_, ?_⟩
  · exact h.2.2.1 (by decide)
  · exact h.2.2.1 (by decide)

end Gateway
